import Mathlib

/-!
Verification of the vault-api catalog/search service (src/index.ts).

Strings are modelled as lists of characters (`Str`).  JavaScript string
methods used by the source (`toLowerCase`, `startsWith`, `includes`,
`endsWith`, `split(\s+)`, `trim`, `slice`) are given executable
definitions below.  Fractional JavaScript numbers (fuse scores,
relevance scores) are modelled as rationals.
-/

abbrev Str := List Char

/-- JS `String.prototype.toLowerCase`, character-wise. -/
def toLowerStr (s : Str) : Str := s.map Char.toLower

/-- The character class of the regex `[®™©:]` in `prepareApps`. -/
def isStrippedSymbol (c : Char) : Bool :=
  c = '®' || c = '™' || c = '©' || c = ':'

/-- `replace([®™©:], "")` from `prepareApps`. -/
def removeSymbols (s : Str) : Str := s.filter (fun c => !(isStrippedSymbol c))

/-- Squeeze adjacent spaces to one space (second half of `replace(\s+, " ")`). -/
def squeezeSpaces : Str → Str
  | [] => []
  | [c] => [c]
  | a :: b :: rest =>
    if a = ' ' && b = ' ' then squeezeSpaces (b :: rest)
    else a :: squeezeSpaces (b :: rest)

/-- JS `replace(\s+, " ")`: every maximal whitespace run becomes one space. -/
def collapseWs (s : Str) : Str :=
  squeezeSpaces (s.map (fun c => if c.isWhitespace then ' ' else c))

/-- JS `String.prototype.trim`. -/
def trimStr (s : Str) : Str :=
  ((s.dropWhile (fun c => c.isWhitespace)).reverse.dropWhile
    (fun c => c.isWhitespace)).reverse

/-- JS `hay.startsWith(needle)`. -/
def startsWithStr : Str → Str → Bool
  | _, [] => true
  | [], _ :: _ => false
  | a :: as, b :: bs => a == b && startsWithStr as bs

/-- JS `hay.includes(needle)` (substring containment). -/
def includesStr : Str → Str → Bool
  | [], needle => startsWithStr [] needle
  | c :: t, needle => startsWithStr (c :: t) needle || includesStr t needle

/-- JS `hay.endsWith(needle)`. -/
def endsWithStr (hay needle : Str) : Bool :=
  startsWithStr hay.reverse needle.reverse

/-- Accumulator for `wordsOf`. -/
def wordsAux : Str → Str → List Str
  | [], acc => if acc.isEmpty then [] else [acc.reverse]
  | c :: rest, acc =>
    if c.isWhitespace then
      if acc.isEmpty then wordsAux rest [] else acc.reverse :: wordsAux rest []
    else wordsAux rest (c :: acc)

/-- JS `s.split(\s+).filter(w => w.length > 0)`: the whitespace-separated
words of `s`. -/
def wordsOf (s : Str) : List Str := wordsAux s []

/-- A raw catalog entry `{appid, name}` as delivered by the catalog source. -/
structure RawApp where
  appid : Nat
  name : Str
  deriving DecidableEq

/-- A prepared catalog entry after `prepareApps` has added the derived
`lowerName` and `searchName` fields. -/
structure App where
  appid : Nat
  name : Str
  lowerName : Str
  searchName : Str
  deriving DecidableEq

/-- `prepareApps` (src/index.ts lines 32-42), per element: `lowerName` is the
lowercased name, `searchName` is lowercased, `[®™©:]`-stripped,
whitespace-collapsed and trimmed. -/
def prepareApp (g : RawApp) : App :=
  { appid := g.appid
    name := g.name
    lowerName := toLowerStr g.name
    searchName := trimStr (collapseWs (removeSymbols (toLowerStr g.name))) }

/-- `calculateSimpleScore` (src/index.ts lines 233-249).  The local
variable `score = (1 - fuseScore) * 100` of the source is inlined at each
of its read sites. -/
def calculateSimpleScore (name query : Str) (fuseScore : ℚ) : ℚ :=
  if name = query then 100000
  else if startsWithStr name query = true then 50000 + (1 - fuseScore) * 100
  else if (includesStr name ((' ' :: query) ++ [' ']) ||
      endsWithStr name (' ' :: query)) = true then 20000 + (1 - fuseScore) * 100
  else if includesStr name query = true then 10000 + (1 - fuseScore) * 100
  else if name.length < 30 then
    (1 - fuseScore) * 100 + (30 - (name.length : ℚ)) * 5
  else (1 - fuseScore) * 100

/-- Modelled from the spec: the tier-4 predicate of the RelevanceScorer
contract, "query appears as a whole word (bounded by spaces or string
edges) inside name" — the occurrence is bounded on each side either by a
string edge or by a space. -/
def specWholeWord (name query : Str) : Bool :=
  (name == query) || startsWithStr name (query ++ [' ']) ||
    endsWithStr name (' ' :: query) || includesStr name ((' ' :: query) ++ [' '])

/-- Modelled from the spec: the six-step RelevanceScorer cascade of §4.3
(baseline, exact, starts-with, whole word, substring, short-name boost). -/
def specScore (name query : Str) (q : ℚ) : ℚ :=
  if name = query then 100000
  else if startsWithStr name query = true then 50000 + (1 - q) * 100
  else if specWholeWord name query = true then 20000 + (1 - q) * 100
  else if includesStr name query = true then 10000 + (1 - q) * 100
  else if name.length < 30 then (1 - q) * 100 + (30 - (name.length : ℚ)) * 5
  else (1 - q) * 100

/-- The scoring tier selected by `calculateSimpleScore`'s cascade:
0 = exact, 1 = starts-with, 2 = whole word, 3 = substring, 4 = pure fuzzy. -/
def tierIndex (name query : Str) : ℕ :=
  if name = query then 0
  else if startsWithStr name query = true then 1
  else if (includesStr name ((' ' :: query) ++ [' ']) ||
      endsWithStr name (' ' :: query)) = true then 2
  else if includesStr name query = true then 3
  else 4

/-- Lower bound of the score band of each tier (fuse score in [0,1]). -/
def tierLB (t : ℕ) : ℚ :=
  if t = 0 then 100000
  else if t = 1 then 50000
  else if t = 2 then 20000
  else if t = 3 then 10000
  else 0

/-- Upper bound of the score band of each tier (fuse score in [0,1]). -/
def tierUB (t : ℕ) : ℚ :=
  if t = 0 then 100000
  else if t = 1 then 50100
  else if t = 2 then 20100
  else if t = 3 then 10100
  else 250

/-- JS `v || d` on numbers: a zero (falsy) value falls back to `d`. -/
def jsOrQ (v d : ℚ) : ℚ := if v = 0 then d else v

/-- A fuzzy-match candidate with its relevance score, as built by the
`.map` step of the `/games/search` pipeline. -/
structure Scored where
  item : App
  relevanceScore : ℚ
  deriving DecidableEq

/-- The `.filter` predicate of the `/games/search` pipeline
(src/index.ts lines 196-203): drop candidates with `(r.score || 1) > 0.4`;
for multi-word queries additionally require every query word to be a
substring of `lowerName`. -/
def keepResult (queryWords : List Str) (r : App × ℚ) : Bool :=
  if jsOrQ r.2 1 > (0.4 : ℚ) then false
  else if 1 < queryWords.length then
    queryWords.all (fun w => includesStr r.1.lowerName w)
  else true

/-- Insert into a list sorted by descending `relevanceScore` (stable:
an element moves past `y` only when `y` scores strictly higher). -/
def insertByScoreDesc (x : Scored) : List Scored → List Scored
  | [] => [x]
  | y :: ys =>
    if x.relevanceScore < y.relevanceScore then y :: insertByScoreDesc x ys
    else x :: y :: ys

/-- The `.sort((a, b) => b.relevanceScore - a.relevanceScore)` step:
stable sort by descending relevance score. -/
def sortByScoreDesc : List Scored → List Scored
  | [] => []
  | x :: xs => insertByScoreDesc x (sortByScoreDesc xs)

/-- The filter/score/sort/truncate pipeline of `/games/search`
(src/index.ts lines 188-213), applied to the fuse results: filter by
`keepResult`, score each kept item with
`calculateSimpleScore(lowerName, queryLower, r.score || 0)`, sort by
descending score, `slice(0, 100)`. -/
def searchPipeline (queryLower : Str) (results : List (App × ℚ)) : List Scored :=
  let queryWords := wordsOf queryLower
  (sortByScoreDesc ((results.filter (keepResult queryWords)).map
    (fun r => ⟨r.1, calculateSimpleScore r.1.lowerName queryLower (jsOrQ r.2 0)⟩))).take 100

/-- `maxResults` (src/index.ts line 191). -/
def maxResults : ℕ := 200

/-- Modelled from the spec: the FuzzyIndex `search(query, limit)` call
"returns up to `limit` candidates" (§4.2); the Fuse.js engine itself is
not part of src/, so it is modelled as an arbitrary oracle truncated to
the requested limit. -/
def fuseSearch (oracle : Str → List (App × ℚ)) (query : Str) (limit : ℕ) :
    List (App × ℚ) :=
  (oracle query).take limit

/-- The full `/games/search` result-set computation: fuse search with
`limit: maxResults`, then the filter/score/sort/truncate pipeline on the
lowercased query. -/
def searchEndpointResults (oracle : Str → List (App × ℚ)) (query : Str) :
    List Scored :=
  searchPipeline (toLowerStr query) (fuseSearch oracle query maxResults)

/-- JS `slice(a, b)` for in-range nonnegative indices. -/
def jsSlice (l : List App) (a b : ℕ) : List App := (l.drop a).take (b - a)

/-- The `games` window served by `GET /games` (src/index.ts line 264):
`allGames.slice((page - 1) * perPage, page * perPage)`. -/
def gamesPage (catalog : List App) (page perPage : ℕ) : List App :=
  jsSlice catalog ((page - 1) * perPage) (page * perPage)

/-- JS `parseInt(x) || d`: `none` models `NaN` (unparsable), a parsed `0`
is falsy and also falls back to `d`. -/
def jsOrInt (v : Option ℤ) (d : ℤ) : ℤ :=
  match v with
  | none => d
  | some n => if n = 0 then d else n

/-- `Math.max(1, parseInt(req.query.page) || 1)`
(src/index.ts lines 176 and 252). -/
def effPage (v : Option ℤ) : ℤ := max 1 (jsOrInt v 1)

/-- `Math.min(100, parseInt(req.query.perPage) || 16)`
(src/index.ts lines 177 and 253). -/
def effPerPage (v : Option ℤ) : ℤ := min 100 (jsOrInt v 16)

/-- A JavaScript value, as far as truthiness and cache payloads are
concerned. -/
inductive JsVal where
  | num (q : ℚ)
  | str (s : Str)
  | jsBool (b : Bool)
  | nullVal
  | undefVal
  | obj (id : ℕ)
  deriving DecidableEq

/-- JS truthiness: `0`, `""`, `false`, `null`, `undefined` are falsy. -/
def truthy : JsVal → Bool
  | .num q => if q = 0 then false else true
  | .str s => !s.isEmpty
  | .jsBool b => b
  | .nullVal => false
  | .undefVal => false
  | .obj _ => true

/-- The node-cache store: `none` models an absent or expired key. -/
abbrev Cache := Str → Option JsVal

/-- `cache.get(key)`: returns the stored value, or `undefined` on a miss. -/
def cacheGet (c : Cache) (k : Str) : JsVal :=
  match c k with
  | some v => v
  | none => .undefVal

/-- `cache.set(key, value)` with the default TTL. -/
def cacheSet (c : Cache) (k : Str) (v : JsVal) : Cache :=
  fun k2 => if k2 = k then some v else c k2

/-- `getCachedOrFetch` (src/index.ts lines 93-99).  The fetch function's
outcome is pre-determined (`Except Unit JsVal`); the result records the
outcome, the cache after the call, and whether the fetch was invoked. -/
def getCachedOrFetch (c : Cache) (k : Str) (fetchFn : Except Unit JsVal) :
    Except Unit JsVal × Cache × Bool :=
  if truthy (cacheGet c k) = true then (.ok (cacheGet c k), c, false)
  else
    match fetchFn with
    | .error e => (.error e, c, true)
    | .ok data => (.ok data, cacheSet c k data, true)

/-- Outcome of one axios call: a payload, an HTTP error carrying
`error.response.status`, or a network/timeout error with no response. -/
inductive HttpOutcome (α : Type) where
  | ok (payload : α)
  | httpError (status : ℕ)
  | netError
  deriving DecidableEq

/-- Body of `GET /games/steam/:appid` on the asset source: a success flag
and the resolved external game id. -/
structure GridSearchPayload where
  success : Bool
  gameId : ℕ
  deriving DecidableEq

/-- Body of the asset fetch: success flag plus the asset list. -/
structure GridAssetsPayload where
  success : Bool
  assets : List ℕ
  deriving DecidableEq

/-- The environment of one `fetchSteamGridAssets` call: whether the API
key is configured and the outcomes of the two upstream calls. -/
structure GridEnv where
  hasApiKey : Bool
  searchResp : HttpOutcome GridSearchPayload
  assetsResp : HttpOutcome GridAssetsPayload
  deriving DecidableEq

/-- A `cache.set` performed by `fetchSteamGridAssets`: the stored asset
list and the TTL argument; `ttl = none` means the 3-argument form was not
used, so node-cache's default `stdTTL` (18000 s) applies. -/
structure CacheWrite where
  assets : List ℕ
  ttl : Option ℕ
  deriving DecidableEq

/-- `fetchSteamGridAssets` (src/index.ts lines 110-149) on a cache miss:
returns the served asset list and the cache write performed (if any).
On a resolve response with `success: false` the source calls
`cache.set(cacheKey, [])` with no TTL argument; in the catch block it
calls `cache.set(cacheKey, [], status === 404 ? 3600 : 0)`; on success it
calls `cache.set(cacheKey, assets, 86400)`. -/
def fetchSteamGridAssets (env : GridEnv) : List ℕ × Option CacheWrite :=
  if env.hasApiKey = false then ([], none)
  else
    match env.searchResp with
    | .ok sp =>
      if sp.success = false then ([], some ⟨[], none⟩)
      else
        match env.assetsResp with
        | .ok ap =>
          ((if ap.success = true then ap.assets else []),
            some ⟨(if ap.success = true then ap.assets else []), some 86400⟩)
        | .httpError s => ([], some ⟨[], some (if s = 404 then 3600 else 0)⟩)
        | .netError => ([], some ⟨[], some 0⟩)
    | .httpError s => ([], some ⟨[], some (if s = 404 then 3600 else 0)⟩)
    | .netError => ([], some ⟨[], some 0⟩)

/-- The module-level state touched by `initAppList`: the active catalog,
whether `fuseInstance` is non-null, and `appListReady`. -/
structure ServerState where
  steamApps : List App
  fuseReady : Bool
  appListReady : Bool
  deriving DecidableEq

/-- The environment of one `initAppList` run: outcome of the snapshot
read, outcome of the upstream fetch, and whether the snapshot write
succeeds. -/
structure InitEnv where
  fileResult : Except Unit (List RawApp)
  fetchResult : Except Unit (List RawApp)
  writeOk : Bool

/-- `initAppList` (src/index.ts lines 59-81).  The file path replaces the
catalog and returns; otherwise the fetch path replaces the catalog, sets
ready, then writes the snapshot — a failing write reaches the outer
catch, which only resets `appListReady`.  If both paths fail the outer
catch leaves the previous catalog in place.  The function is total: every
failure is caught, nothing propagates to the caller. -/
def initAppList (env : InitEnv) (st : ServerState) : ServerState :=
  match env.fileResult with
  | .ok raws => ⟨raws.map prepareApp, true, true⟩
  | .error _ =>
    match env.fetchResult with
    | .ok raws =>
      if env.writeOk = true then ⟨raws.map prepareApp, true, true⟩
      else ⟨raws.map prepareApp, true, false⟩
    | .error _ => ⟨st.steamApps, st.fuseReady, false⟩

/-- A cache holding the truthy number 7 under key `k`. -/
def cacheSeven : Cache := fun k => if k = ['k'] then some (.num 7) else none

/-- A cache holding a live entry with the falsy value 0 under key `k`. -/
def cacheZero : Cache := fun k => if k = ['k'] then some (.num 0) else none

/-- A small concrete catalog item used in concrete instances. -/
def exApp (n : ℕ) : App := prepareApp ⟨n, "g".toList⟩

/-- A concrete 5-item catalog. -/
def ex5 : List App := [exApp 1, exApp 2, exApp 3, exApp 4, exApp 5]

/-! ## Helper lemmas -/

lemma startsWithStr_append_right (hay a b : Str) :
    startsWithStr hay (a ++ b) = true → startsWithStr hay a = true := by
  induction a generalizing hay with
  | nil => intro _; cases hay <;> simp [startsWithStr]
  | cons c cs ih =>
    intro h
    cases hay with
    | nil => simp [startsWithStr] at h
    | cons d ds =>
      simp only [List.cons_append, startsWithStr, Bool.and_eq_true] at h ⊢
      exact ⟨h.1, ih ds h.2⟩

lemma mem_insertByScoreDesc (x a : Scored) (l : List Scored) :
    a ∈ insertByScoreDesc x l ↔ a = x ∨ a ∈ l := by
  induction l with
  | nil => simp [insertByScoreDesc]
  | cons y ys ih =>
    unfold insertByScoreDesc
    split_ifs with h
    · simp only [List.mem_cons, ih]
      tauto
    · simp only [List.mem_cons]

lemma mem_sortByScoreDesc (a : Scored) (l : List Scored) :
    a ∈ sortByScoreDesc l ↔ a ∈ l := by
  induction l with
  | nil => simp [sortByScoreDesc]
  | cons x xs ih =>
    simp [sortByScoreDesc, mem_insertByScoreDesc, ih]

lemma join_page_chunks (p : ℕ) (_hp : 1 ≤ p) :
    ∀ (k : ℕ) (l : List App), l.length ≤ k * p →
      ((List.range k).map (fun i => (l.drop (i * p)).take p)).flatten = l := by
  intro k
  induction k with
  | zero =>
    intro l hl
    have h0 : l = [] := List.length_eq_zero.mp (by omega)
    subst h0
    simp
  | succ k ih =>
    intro l hl
    rw [List.range_succ_eq_map]
    simp only [List.map_cons, List.map_map, List.flatten_cons, Nat.zero_mul,
      List.drop_zero]
    have hfun : ((fun i => (l.drop (i * p)).take p) ∘ Nat.succ) =
        (fun i => ((l.drop p).drop (i * p)).take p) := by
      funext i
      have hidx : Nat.succ i * p = p + i * p := by
        rw [Nat.succ_mul]
        exact Nat.add_comm _ _
      simp only [Function.comp_apply, List.drop_drop, hidx]
    rw [hfun]
    have hlen : (l.drop p).length ≤ k * p := by
      rw [List.length_drop]
      rw [Nat.succ_mul] at hl
      exact Nat.sub_le_iff_le_add.mpr hl
    rw [ih (l.drop p) hlen]
    exact List.take_append_drop p l

lemma tierIndex_le_four (name query : Str) : tierIndex name query ≤ 4 := by
  unfold tierIndex
  split_ifs <;> norm_num

lemma tierGap (t1 t2 : ℕ) (h : t1 < t2) (h4 : t2 ≤ 4) :
    tierUB t2 < tierLB t1 := by
  have h3 : t1 ≤ 3 := by omega
  interval_cases t1 <;> interval_cases t2 <;> norm_num [tierLB, tierUB]

lemma calculateSimpleScore_bounds (name query : Str) (q : ℚ)
    (h0 : 0 ≤ q) (h1 : q ≤ 1) :
    tierLB (tierIndex name query) ≤ calculateSimpleScore name query q ∧
      calculateSimpleScore name query q ≤ tierUB (tierIndex name query) := by
  have hb0 : (0:ℚ) ≤ (1 - q) * 100 := by nlinarith
  have hb1 : (1 - q) * 100 ≤ 100 := by nlinarith
  unfold calculateSimpleScore tierIndex
  split_ifs with hA hB hC hD hE
  · constructor <;> norm_num [tierLB, tierUB]
  · simp only [tierLB, tierUB]
    constructor <;> norm_num <;> linarith
  · simp only [tierLB, tierUB]
    constructor <;> norm_num <;> linarith
  · simp only [tierLB, tierUB]
    constructor <;> norm_num <;> linarith
  · simp only [tierLB, tierUB]
    have hL1 : (name.length : ℚ) ≤ 29 := by
      have h29 : name.length ≤ 29 := by omega
      exact_mod_cast h29
    have hL0 : (0:ℚ) ≤ (name.length : ℚ) := Nat.cast_nonneg _
    constructor <;> norm_num <;> nlinarith
  · simp only [tierLB, tierUB]
    constructor <;> norm_num <;> linarith

/-! ## Claim theorems -/

/-- C1 (code bug evidence): a catalog item whose lowercased name equals the
lowercased query, reported by the fuzzy engine with the perfect quality 0,
is dropped from the `/games/search` result set: the filter computes
`(r.score || 1) > 0.4`, and the falsy perfect score 0 is coerced to 1. -/
theorem search_drops_perfect_exact_match :
    (prepareApp ⟨570, "Dota".toList⟩).lowerName = "dota".toList ∧
      searchPipeline "dota".toList [(prepareApp ⟨570, "Dota".toList⟩, 0)] = [] := by
  refine ⟨by decide, ?_⟩
  have hk : keepResult (wordsOf "dota".toList)
      (prepareApp ⟨570, "Dota".toList⟩, 0) = false := by
    unfold keepResult jsOrQ
    norm_num
  simp only [searchPipeline]
  rw [List.filter_cons_of_neg (by rw [hk]; simp), List.filter_nil]
  simp only [List.map_nil, sortByScoreDesc, List.take_nil]

/-- C2: for every lowercased name, lowercased query and fuzzy quality
q in [0,1], `calculateSimpleScore` equals the spec's six-step cascade
(`specScore`). -/
theorem calculateSimpleScore_eq_specScore (name query : Str) (q : ℚ)
    (_h0 : 0 ≤ q) (_h1 : q ≤ 1) :
    calculateSimpleScore name query q = specScore name query q := by
  unfold calculateSimpleScore specScore
  by_cases heq : name = query
  · simp [heq]
  · by_cases hpre : startsWithStr name query = true
    · simp [heq, hpre]
    · have h2 : startsWithStr name (query ++ [' ']) = false := by
        cases hsw : startsWithStr name (query ++ [' ']) with
        | false => rfl
        | true => exact absurd (startsWithStr_append_right name query [' '] hsw) hpre
      have h3 : (name == query) = false := by
        simp [heq]
      have hcond : specWholeWord name query =
          (includesStr name ((' ' :: query) ++ [' ']) ||
            endsWithStr name (' ' :: query)) := by
        unfold specWholeWord
        rw [h2, h3]
        cases endsWithStr name (' ' :: query) <;>
          cases includesStr name ((' ' :: query) ++ [' ']) <;> simp
      rw [hcond]

/-- C2 witness: the equality at a concrete substring-tier input. -/
theorem calculateSimpleScore_eq_specScore_w :
    (0:ℚ) ≤ 1/4 ∧ (1/4:ℚ) ≤ 1 ∧
      calculateSimpleScore "half life 2".toList "life".toList (1/4) =
        specScore "half life 2".toList "life".toList (1/4) :=
  ⟨by norm_num, by norm_num,
    calculateSimpleScore_eq_specScore "half life 2".toList "life".toList (1/4)
      (by norm_num) (by norm_num)⟩

/-- C3 (counterexample): for the two-word query "half: life" the candidate
"Half:Life" is kept by the `/games/search` filter although its normalized
name "halflife" does not contain the query word "half:" as a substring —
the filter tests `lowerName`, not the normalized `searchName`. -/
theorem multiword_filter_cex :
    1 < (wordsOf "half: life".toList).length ∧
      (searchPipeline "half: life".toList
          [(prepareApp ⟨220, "Half:Life".toList⟩, 1/5)]).map (·.item) =
        [prepareApp ⟨220, "Half:Life".toList⟩] ∧
      includesStr (prepareApp ⟨220, "Half:Life".toList⟩).searchName
        "half:".toList = false := by
  refine ⟨by decide, ?_, by decide⟩
  have hk : keepResult (wordsOf "half: life".toList)
      (prepareApp ⟨220, "Half:Life".toList⟩, 1/5) = true := by
    unfold keepResult
    rw [if_neg (by norm_num [jsOrQ])]
    rw [if_pos (by decide)]
    decide
  simp only [searchPipeline]
  rw [List.filter_cons_of_pos hk, List.filter_nil]
  simp only [List.map_cons, List.map_nil, sortByScoreDesc, insertByScoreDesc,
    List.take_succ_cons, List.take_nil]

/-- C3 (amended): for every query with at least two whitespace-separated
words, every candidate kept in the `/games/search` result set contains
every query word as a substring of its lowercased raw name (`lowerName`),
regardless of its fuzzy quality. -/
theorem multiword_filter_lowerName (queryLower : Str)
    (results : List (App × ℚ)) (hw : 1 < (wordsOf queryLower).length) :
    ∀ s ∈ searchPipeline queryLower results, ∀ w ∈ wordsOf queryLower,
      includesStr s.item.lowerName w = true := by
  intro s hs w hww
  simp only [searchPipeline] at hs
  have hs1 : s ∈ sortByScoreDesc
      ((results.filter (keepResult (wordsOf queryLower))).map
        (fun r => ⟨r.1, calculateSimpleScore r.1.lowerName queryLower (jsOrQ r.2 0)⟩)) :=
    List.take_subset _ _ hs
  rw [mem_sortByScoreDesc] at hs1
  obtain ⟨r, hrmem, rfl⟩ := List.mem_map.mp hs1
  have hk : keepResult (wordsOf queryLower) r = true :=
    (List.mem_filter.mp hrmem).2
  unfold keepResult at hk
  by_cases h1 : jsOrQ r.2 1 > (0.4 : ℚ)
  · rw [if_pos h1] at hk
    exact absurd hk (by simp)
  · rw [if_neg h1, if_pos hw] at hk
    exact List.all_eq_true.mp hk w hww

/-- C3 witness: the amended filter property at a concrete kept candidate. -/
theorem multiword_filter_lowerName_w :
    includesStr (prepareApp ⟨220, "Half Life".toList⟩).lowerName
      "half".toList = true := by
  have hk : keepResult (wordsOf "half life".toList)
      (prepareApp ⟨220, "Half Life".toList⟩, 1/10) = true := by
    unfold keepResult
    rw [if_neg (by norm_num [jsOrQ])]
    rw [if_pos (by decide)]
    decide
  have hcalc : calculateSimpleScore
      (prepareApp ⟨220, "Half Life".toList⟩).lowerName
      "half life".toList (jsOrQ (1/10) 0) = 100000 := by
    have heq : (prepareApp ⟨220, "Half Life".toList⟩).lowerName =
        "half life".toList := by decide
    rw [heq]
    unfold calculateSimpleScore
    rw [if_pos rfl]
  have hpipe : searchPipeline "half life".toList
      [(prepareApp ⟨220, "Half Life".toList⟩, 1/10)] =
      [⟨prepareApp ⟨220, "Half Life".toList⟩, 100000⟩] := by
    simp only [searchPipeline]
    rw [List.filter_cons_of_pos hk, List.filter_nil]
    simp only [List.map_cons, List.map_nil, sortByScoreDesc, insertByScoreDesc,
      List.take_succ_cons, List.take_nil]
    rw [hcalc]
  exact multiword_filter_lowerName "half life".toList
    [(prepareApp ⟨220, "Half Life".toList⟩, 1/10)] (by decide)
    ⟨prepareApp ⟨220, "Half Life".toList⟩, 100000⟩
    (by rw [hpipe]; exact List.Mem.head _)
    "half".toList (by decide)

/-- C4 (counterexample): when the id-resolution call returns an HTTP-200
body with `success: false` (a confirmed "not found"), `fetchSteamGridAssets`
caches the empty result with `cache.set`'s default TTL (`ttl = none`,
i.e. the global `stdTTL` of 18000 s), not the 1-hour TTL the claim
assigns to a confirmed not-found. -/
theorem grid_ttl_cex :
    (fetchSteamGridAssets ⟨true, .ok ⟨false, 0⟩, .netError⟩).2 =
        some ⟨[], none⟩ ∧
      (some (⟨[], none⟩ : CacheWrite) ≠ some (⟨[], some 3600⟩ : CacheWrite)) ∧
      (some (⟨[], none⟩ : CacheWrite) ≠ some (⟨[], some 86400⟩ : CacheWrite)) := by
  decide

/-- C4 (amended): with an API key configured, the cache write of
`fetchSteamGridAssets` has the outcome-dependent TTL: 86400 s (24 h) when
both calls deliver payloads; 3600 s (1 h) when either call fails with
HTTP 404; the default TTL (no explicit TTL argument) when the resolve
body reports `success: false`; and TTL 0 ("do not cache" per the spec's
cache contract) on any other failure, including authorization errors. -/
theorem grid_assets_ttl (env : GridEnv) (hk : env.hasApiKey = true) :
    (∀ sp ap, env.searchResp = .ok sp → sp.success = true →
        env.assetsResp = .ok ap →
        (fetchSteamGridAssets env).2 =
          some ⟨if ap.success = true then ap.assets else [], some 86400⟩) ∧
      (env.searchResp = HttpOutcome.httpError 404 →
        (fetchSteamGridAssets env).2 = some ⟨[], some 3600⟩) ∧
      (∀ sp, env.searchResp = .ok sp → sp.success = false →
        (fetchSteamGridAssets env).2 = some ⟨[], none⟩) ∧
      (∀ s, env.searchResp = .httpError s → s ≠ 404 →
        (fetchSteamGridAssets env).2 = some ⟨[], some 0⟩) ∧
      (env.searchResp = HttpOutcome.netError →
        (fetchSteamGridAssets env).2 = some ⟨[], some 0⟩) ∧
      (∀ sp, env.searchResp = .ok sp → sp.success = true →
        env.assetsResp = HttpOutcome.netError →
        (fetchSteamGridAssets env).2 = some ⟨[], some 0⟩) ∧
      (∀ sp s, env.searchResp = .ok sp → sp.success = true →
        env.assetsResp = .httpError s →
        (fetchSteamGridAssets env).2 =
          some ⟨[], some (if s = 404 then 3600 else 0)⟩) := by
  refine ⟨?_, ?_, ?_, ?_, ?_, ?_, ?_⟩
  · intro sp ap h1 h2 h3
    simp [fetchSteamGridAssets, hk, h1, h2, h3]
  · intro h1
    simp [fetchSteamGridAssets, hk, h1]
  · intro sp h1 h2
    simp [fetchSteamGridAssets, hk, h1, h2]
  · intro s h1 h2
    simp [fetchSteamGridAssets, hk, h1, h2]
  · intro h1
    simp [fetchSteamGridAssets, hk, h1]
  · intro sp h1 h2 h3
    simp [fetchSteamGridAssets, hk, h1, h2, h3]
  · intro sp s h1 h2 h3
    simp [fetchSteamGridAssets, hk, h1, h2, h3]

/-- C4 witness: the 1-hour TTL branch at a concrete HTTP-404 outcome. -/
theorem grid_assets_ttl_w :
    (fetchSteamGridAssets ⟨true, .httpError 404, .netError⟩).2 =
      some ⟨[], some 3600⟩ :=
  (grid_assets_ttl ⟨true, .httpError 404, .netError⟩ rfl).2.1 rfl

/-- C5: when both the snapshot path and the fetch path fail, `initAppList`
leaves the previously active catalog and fuse index unchanged and sets the
ready flag to false; the embedded function is total, modelling that the
outer catch never lets the failure propagate to the caller. -/
theorem initAppList_both_fail (env : InitEnv) (st : ServerState)
    (hf : env.fileResult = .error ()) (hn : env.fetchResult = .error ()) :
    (initAppList env st).steamApps = st.steamApps ∧
      (initAppList env st).fuseReady = st.fuseReady ∧
      (initAppList env st).appListReady = false := by
  unfold initAppList
  rw [hf, hn]
  exact ⟨rfl, rfl, rfl⟩

/-- C5 witness: the double-failure case run on a concrete one-item
catalog. -/
theorem initAppList_both_fail_w :
    (initAppList ⟨.error (), .error (), true⟩
        ⟨[prepareApp ⟨570, "Dota 2".toList⟩], true, true⟩).steamApps =
        [prepareApp ⟨570, "Dota 2".toList⟩] ∧
      (initAppList ⟨.error (), .error (), true⟩
        ⟨[prepareApp ⟨570, "Dota 2".toList⟩], true, true⟩).fuseReady = true ∧
      (initAppList ⟨.error (), .error (), true⟩
        ⟨[prepareApp ⟨570, "Dota 2".toList⟩], true, true⟩).appListReady = false :=
  initAppList_both_fail ⟨.error (), .error (), true⟩
    ⟨[prepareApp ⟨570, "Dota 2".toList⟩], true, true⟩ rfl rfl

/-- C6: for every catalog and every perPage ≥ 1, concatenating the
`games` windows of pages 1 through ceil(total/perPage) served by
`GET /games` reconstructs the catalog in order, with no item repeated or
skipped. -/
theorem games_pages_partition (catalog : List App) (perPage : ℕ)
    (hp : 1 ≤ perPage) :
    ((List.range ((catalog.length + perPage - 1) / perPage)).map
        (fun i => gamesPage catalog (i + 1) perPage)).flatten = catalog := by
  have hpage : (fun i => gamesPage catalog (i + 1) perPage) =
      (fun i => (catalog.drop (i * perPage)).take perPage) := by
    funext i
    unfold gamesPage jsSlice
    have h1 : i + 1 - 1 = i := by omega
    have h2 : (i + 1) * perPage - (i + 1 - 1) * perPage = perPage := by
      rw [h1, Nat.succ_mul]
      omega
    rw [h2, h1]
  rw [hpage]
  have key : catalog.length ≤
      ((catalog.length + perPage - 1) / perPage) * perPage := by
    have hdm := Nat.div_add_mod (catalog.length + perPage - 1) perPage
    have hmod : (catalog.length + perPage - 1) % perPage < perPage :=
      Nat.mod_lt _ (by omega)
    obtain ⟨m, hm⟩ :
        ∃ m, perPage * ((catalog.length + perPage - 1) / perPage) = m :=
      ⟨_, rfl⟩
    rw [hm] at hdm
    rw [Nat.mul_comm ((catalog.length + perPage - 1) / perPage) perPage, hm]
    omega
  exact join_page_chunks perPage hp _ catalog key

/-- C6 witness: the partition on a concrete 5-item catalog with
perPage = 2, and the page-2 window being exactly the items at 0-based
indices 2 and 3. -/
theorem games_pages_partition_w :
    1 ≤ 2 ∧
      ((List.range ((ex5.length + 2 - 1) / 2)).map
        (fun i => gamesPage ex5 (i + 1) 2)).flatten = ex5 ∧
      gamesPage ex5 2 2 = [exApp 3, exApp 4] :=
  ⟨by omega, games_pages_partition ex5 2 (by omega), by decide⟩

/-- C7 (counterexample): a live cache entry holding the falsy value 0 is
not returned by `getCachedOrFetch`: the compute function is invoked
(third component `true`) and its result is returned instead. -/
theorem getCachedOrFetch_falsy_cex :
    cacheZero ['k'] = some (.num 0) ∧
      (getCachedOrFetch cacheZero ['k'] (.ok (.num 7))).2.2 = true ∧
      (getCachedOrFetch cacheZero ['k'] (.ok (.num 7))).1 = .ok (.num 7) := by
  exact ⟨rfl, rfl, rfl⟩

/-- C7 (amended): `getCachedOrFetch` returns a live cached entry without
invoking the compute function when the entry's value is truthy; when the
lookup yields a falsy value (including a miss), the compute function is
invoked, a failure propagates and stores nothing, and a success is stored
under the key and returned. -/
theorem getCachedOrFetch_contract (c : Cache) (k : Str)
    (fetchFn : Except Unit JsVal) :
    (∀ v, c k = some v → truthy v = true →
        getCachedOrFetch c k fetchFn = (.ok v, c, false)) ∧
      (truthy (cacheGet c k) = false → ∀ e, fetchFn = .error e →
        getCachedOrFetch c k fetchFn = (.error e, c, true)) ∧
      (truthy (cacheGet c k) = false → ∀ d, fetchFn = .ok d →
        getCachedOrFetch c k fetchFn = (.ok d, cacheSet c k d, true)) := by
  refine ⟨?_, ?_, ?_⟩
  · intro v hv ht
    have hcg : cacheGet c k = v := by
      unfold cacheGet
      rw [hv]
    unfold getCachedOrFetch
    simp [hcg, ht]
  · intro hf e he
    unfold getCachedOrFetch
    simp [hf, he]
  · intro hf d hd
    unfold getCachedOrFetch
    simp [hf, hd]

/-- C7 witness: the truthy-hit branch on a concrete cache. -/
theorem getCachedOrFetch_contract_w :
    getCachedOrFetch cacheSeven ['k'] (.ok (.num 3)) =
      (.ok (.num 7), cacheSeven, false) :=
  (getCachedOrFetch_contract cacheSeven ['k'] (.ok (.num 3))).1
    (.num 7) rfl rfl

/-- C8: for fuzzy qualities in [0,1] the five score tiers of
`calculateSimpleScore` never overlap: any score from a strictly better
(lower-numbered) tier exceeds any score from a worse tier, across all
names and queries. -/
theorem score_tier_dominance (n1 q1 n2 q2 : Str) (s1 s2 : ℚ)
    (h10 : 0 ≤ s1) (h11 : s1 ≤ 1) (h20 : 0 ≤ s2) (h21 : s2 ≤ 1)
    (ht : tierIndex n1 q1 < tierIndex n2 q2) :
    calculateSimpleScore n2 q2 s2 < calculateSimpleScore n1 q1 s1 := by
  have b1 := calculateSimpleScore_bounds n1 q1 s1 h10 h11
  have b2 := calculateSimpleScore_bounds n2 q2 s2 h20 h21
  have hg := tierGap _ _ ht (tierIndex_le_four n2 q2)
  linarith [b1.1, b2.2]

/-- C8 witness: an exact-tier score dominating a pure-fuzzy-tier score at
equal fuzzy quality. -/
theorem score_tier_dominance_w :
    calculateSimpleScore "steam deck verified".toList "dota".toList (1/2) <
      calculateSimpleScore "dota".toList "dota".toList (1/2) :=
  score_tier_dominance "dota".toList "dota".toList
    "steam deck verified".toList "dota".toList (1/2) (1/2)
    (by norm_num) (by norm_num) (by norm_num) (by norm_num) (by decide)

/-- C9: for every fuzzy oracle and query, the `/games/search` result set
holds at most 100 items, and the fuzzy engine is consulted for at most
200 candidates. -/
theorem search_results_bounded (oracle : Str → List (App × ℚ))
    (query : Str) :
    (searchEndpointResults oracle query).length ≤ 100 ∧
      (fuseSearch oracle query maxResults).length ≤ 200 := by
  constructor
  · simp only [searchEndpointResults, searchPipeline, List.length_take]
    exact min_le_left _ _
  · simp only [fuseSearch, maxResults, List.length_take]
    exact min_le_left _ _

/-- C10: the effective pagination parameters of `/games` and
`/games/search`: page = max(1, parsed page) with unparsable (none) or
zero mapping to 1; perPage = min(100, parsed perPage) with unparsable or
zero mapping to 16; no lower bound is applied to a negative perPage. -/
theorem pagination_params :
    effPage none = 1 ∧ effPage (some 0) = 1 ∧
      (∀ n : ℤ, effPage (some n) = max 1 n) ∧
      effPerPage none = 16 ∧ effPerPage (some 0) = 16 ∧
      (∀ n : ℤ, effPerPage (some n) = if n = 0 then 16 else min 100 n) ∧
      effPerPage (some (-5)) = -5 := by
  refine ⟨by decide, by decide, ?_, by decide, by decide, ?_, by decide⟩
  · intro n
    unfold effPage jsOrInt
    by_cases hn : n = 0
    · subst hn
      decide
    · simp [hn]
  · intro n
    unfold effPerPage jsOrInt
    by_cases hn : n = 0
    · subst hn
      simp
    · simp [hn]
